import Mathlib

/-!
Shallow embedding of the external-postgres control plane
(src/server/database.rs, src/server/controller.rs, src/server/http/database.rs,
src/server/operator.rs) together with theorems checking the natural-language
specification against it.

The external PostgreSQL server is modelled by its catalog state (roles and
databases, plus per-database presence of the `pgbouncer` schema and the
`pgbouncer.user_lookup` function).  Every SQL statement the program sends is
recorded in an ordered trace, tagged with the database whose pool executed it,
so ordering and injection properties can be stated about exactly the statement
texts the source constructs.
-/

namespace ExternalPostgres

/-- Single-quote character, used when the modelled-from-spec `ensure`
interpolates a password literal into SQL text. -/
def squote : String := (Char.ofNat 39).toString

/-- Catalog row for a role, following the `User` struct selected by
`queries/user-permissions.sql` (src/server/database.rs lines 277-285), extended
with the credential the server stores for the role (`rolpassword`), which the
spec's properties about passwords refer to. -/
structure Role where
  username : String
  can_login : Bool
  create_role : Bool
  create_db : Bool
  bypass_rls : Bool
  superuser : Bool
  rolpassword : Option String
deriving Repr, DecidableEq

/-- Catalog row for a database (`pg_catalog.pg_database`): its name and owner. -/
structure Db where
  datname : String
  owner : String
deriving Repr, DecidableEq

/-- The server-side state: role catalog, database catalog, and for each
database name whether the `pgbouncer` schema and the `pgbouncer.user_lookup`
function have been installed on it. -/
structure ServerState where
  roles : List Role
  dbs : List Db
  schemas : List String
  lookup_fns : List String
deriving Repr, DecidableEq

/-- One SQL round trip sent by the program.  Parameterized catalog reads keep
their bound parameter; dynamically assembled statements carry the exact text
the source builds by string interpolation. -/
inductive SqlOp where
  | queryUserPermissions (username : String)
  | queryDatabaseOid (datname : String)
  | querySchemaOid
  | queryUserLookupOid
  | exec (sql : String)
deriving Repr, DecidableEq

/-- A trace entry: the database whose pool executed the operation, and the
operation itself. -/
structure Stmt where
  onDatabase : String
  op : SqlOp
deriving Repr, DecidableEq

/-- The full state seen by the `Databases` connection manager: the external
server, the pool registry (keys of the `pools` map, src/server/database.rs
line 56), and the ordered trace of SQL operations executed so far. -/
structure State where
  server : ServerState
  registry : List String
  trace : List Stmt
deriving Repr, DecidableEq

/-- Configuration part of the `Databases` struct (src/server/database.rs lines
54-60): the administrative default database name and the administrative
username. -/
structure Databases where
  default_dbname : String
  default_username : String
deriving Repr, DecidableEq

/-- Error enum of src/server/database.rs lines 354-362.  `Internal` carries an
underlying driver error in the source; the model keeps only the kind. -/
inductive Error where
  | InvalidPermissions
  | DefaultDatabase
  | Internal
deriving Repr, DecidableEq

/-- Insertion into the pool registry: `pools.insert(name, pool)` keyed by name,
leaving the registry unchanged when the key is already present. -/
def registryInsert (reg : List String) (name : String) : List String :=
  if name ∈ reg then reg else reg ++ [name]

/-- Record one executed SQL operation in the trace. -/
def State.addStmt (st : State) (db : String) (op : SqlOp) : State :=
  { st with trace := st.trace ++ [⟨db, op⟩] }

/-- Effect on the registry of `Databases::get` (src/server/database.rs lines
204-221): look up the pool for `name`, opening and storing one on a miss. -/
def State.getPool (st : State) (name : String) : State :=
  { st with registry := registryInsert st.registry name }

/-- Look up a role by login name (the `queries/user-permissions.sql` fetch). -/
def lookupRole (sv : ServerState) (name : String) : Option Role :=
  sv.roles.find? (fun r => r.username == name)

/-- Look up a database row by `datname` (the `pg_catalog.pg_database` fetch). -/
def lookupDb (sv : ServerState) (name : String) : Option Db :=
  sv.dbs.find? (fun d => d.datname == name)

/-- Text of the dynamically built CREATE USER statement
(src/server/database.rs line 171; the same text with literal `pgbouncer` is the
static statement at line 132). -/
def createUserStmt (database : String) : String :=
  "CREATE USER " ++ database ++
    " WITH LOGIN NOSUPERUSER NOCREATEROLE NOCREATEDB NOREPLICATION NOBYPASSRLS"

/-- Text of the dynamically built CREATE DATABASE statement
(src/server/database.rs line 186). -/
def createDatabaseStmt (database : String) : String :=
  "CREATE DATABASE " ++ database ++ " WITH OWNER " ++ database

/-- Text of the ALTER DATABASE OWNER statement (src/server/database.rs lines
259-262). -/
def alterDatabaseOwnerStmt (database owner : String) : String :=
  "ALTER DATABASE " ++ database ++ " OWNER TO " ++ owner

/-- Text of the DROP DATABASE statement (src/server/database.rs line 264). -/
def dropDatabaseStmt (database : String) : String :=
  "DROP DATABASE " ++ database

/-- Text of the DROP USER statement (src/server/database.rs line 269). -/
def dropUserStmt (database : String) : String :=
  "DROP USER " ++ database

/-- Modelled from the spec: text of the CREATE USER ... PASSWORD statement of
spec section 4.2 step 1, used by the absent `Databases::ensure`. -/
def createUserWithPasswordStmt (name password : String) : String :=
  createUserStmt name ++ " PASSWORD " ++ squote ++ password ++ squote

/-- Modelled from the spec: text of the ALTER USER ... WITH PASSWORD statement
of spec section 4.2 step 1, used by the absent `Databases::ensure`. -/
def alterUserPasswordStmt (name password : String) : String :=
  "ALTER USER " ++ name ++ " WITH PASSWORD " ++ squote ++ password ++ squote

/-- Marker for the body of `queries/authentication-query-function.sql`
(executed at src/server/database.rs line 336; the file itself is not under
src/, so only its execution is recorded). -/
def authenticationQueryFunctionSql : String :=
  "queries/authentication-query-function.sql"

/-- The role a `CREATE USER ... WITH LOGIN NOSUPERUSER NOCREATEROLE NOCREATEDB
NOREPLICATION NOBYPASSRLS` statement creates; `pw` is the credential stored by
the server (`none` when the statement carries no PASSWORD clause). -/
def newManagedRole (username : String) (pw : Option String) : Role :=
  ⟨username, true, false, false, false, false, pw⟩

/-- Server effect of CREATE USER: a new catalog row. -/
def ServerState.addRole (sv : ServerState) (r : Role) : ServerState :=
  { sv with roles := sv.roles ++ [r] }

/-- Server effect of ALTER USER ... WITH PASSWORD: update the stored
credential of the named role. -/
def ServerState.setRolePassword (sv : ServerState) (name pw : String) : ServerState :=
  { sv with
      roles := sv.roles.map (fun r =>
        if r.username == name then { r with rolpassword := some pw } else r) }

/-- Server effect of CREATE DATABASE ... WITH OWNER: a new catalog row. -/
def ServerState.addDb (sv : ServerState) (d : Db) : ServerState :=
  { sv with dbs := sv.dbs ++ [d] }

/-- Server effect of ALTER DATABASE ... OWNER TO: update the owner of the
named database. -/
def ServerState.setDbOwner (sv : ServerState) (name owner : String) : ServerState :=
  { sv with
      dbs := sv.dbs.map (fun d =>
        if d.datname == name then { d with owner := owner } else d) }

/-- Server effect of DROP DATABASE: remove the catalog row. -/
def ServerState.dropDb (sv : ServerState) (name : String) : ServerState :=
  { sv with dbs := sv.dbs.filter (fun d => !(d.datname == name)) }

/-- Server effect of DROP USER: remove the catalog row. -/
def ServerState.dropRole (sv : ServerState) (name : String) : ServerState :=
  { sv with roles := sv.roles.filter (fun r => !(r.username == name)) }

/-- The 62 characters rand's `Alphanumeric` distribution samples from. -/
def alphanumericChars : List Char :=
  ("ABCDEFGHIJKLMNOPQRSTUVWXYZabcdefghijklmnopqrstuvwxyz0123456789").toList

/-- Model of `Alphanumeric.sample_string(&mut rand::thread_rng(), 32)`
(src/server/database.rs line 170): 32 draws from the alphanumeric alphabet,
with the generator modelled as a stream `g` of naturals. -/
def sampleAlphanumeric (g : Nat → Nat) : String :=
  String.mk ((List.range 32).map (fun i => alphanumericChars.getD (g i % 62) 'A'))

/-- The user block of `ensure_exists` (src/server/database.rs lines 163-176):
look the role up; when absent, sample a fresh password and send the CREATE
USER statement (which carries no PASSWORD clause), returning the sampled
password. -/
def ensureUserStage (cfg : Databases) (g : Nat → Nat) (database : String)
    (st : State) : State × Option String :=
  let st := st.addStmt cfg.default_dbname (.queryUserPermissions database)
  match lookupRole st.server database with
  | some _ => (st, none)
  | none =>
    let pw := sampleAlphanumeric g
    let st := st.addStmt cfg.default_dbname (.exec (createUserStmt database))
    ({ st with server := st.server.addRole (newManagedRole database none) }, some pw)

/-- The database block of `ensure_exists` (src/server/database.rs lines
178-189): look the database up by `datname`; when absent, send CREATE
DATABASE ... WITH OWNER. -/
def ensureDbStage (cfg : Databases) (database : String) (st : State) : State :=
  let st := st.addStmt cfg.default_dbname (.queryDatabaseOid database)
  match lookupDb st.server database with
  | some _ => st
  | none =>
    let st := st.addStmt cfg.default_dbname (.exec (createDatabaseStmt database))
    { st with server := st.server.addDb ⟨database, database⟩ }

/-- Embedding of `Databases::ensure_exists` (src/server/database.rs lines
156-194).  `g` models the thread rng.  Pool opening is modelled as always
succeeding; every SQL round trip is recorded and catalog errors surface as
`Error.Internal`.  On success it returns the name the acquired pool is bound
to together with the freshly generated password when the user was created. -/
def Databases.ensure_exists (cfg : Databases) (g : Nat → Nat) (database : String)
    (st : State) : State × Except Error (String × Option String) :=
  if database = cfg.default_dbname then
    (st, .error .DefaultDatabase)
  else
    let st := st.getPool cfg.default_dbname
    let r := ensureUserStage cfg g database st
    let st := ensureDbStage cfg database r.fst
    let st := st.getPool database
    (st, .ok (database, r.snd))

/-- Embedding of `Databases::remove` (src/server/database.rs lines 242-274):
refuse the default database, evict and close the pool, then on the default
pool run ALTER DATABASE OWNER TO (retain) or DROP DATABASE, then DROP USER.
A statement naming a missing database or role fails as `Internal` after being
sent, exactly where the source's `?` propagates the driver error. -/
def Databases.remove (cfg : Databases) (database : String) (retain : Bool)
    (st : State) : State × Except Error Unit :=
  if database = cfg.default_dbname then
    (st, .error .DefaultDatabase)
  else
    let st := { st with registry := st.registry.erase database }
    let st := st.getPool cfg.default_dbname
    let sql :=
      if retain then alterDatabaseOwnerStmt database cfg.default_username
      else dropDatabaseStmt database
    let st := st.addStmt cfg.default_dbname (.exec sql)
    match lookupDb st.server database with
    | none => (st, .error .Internal)
    | some _ =>
      let st :=
        if retain then { st with server := st.server.setDbOwner database cfg.default_username }
        else { st with server := st.server.dropDb database }
      let st := st.addStmt cfg.default_dbname (.exec (dropUserStmt database))
      match lookupRole st.server database with
      | none => (st, .error .Internal)
      | some _ => ({ st with server := st.server.dropRole database }, .ok ())

/-- Embedding of `Databases::ensure_configuration` (src/server/database.rs
lines 95-139): obtain the default pool, check the connecting user has CREATE
ROLE and CREATE DB (else `InvalidPermissions`; a missing row is a driver error
from `fetch_one`), then create the `pgbouncer` role when absent (presence
without login only logs a warning). -/
def Databases.ensure_configuration (cfg : Databases) (connecting_user : String)
    (st : State) : State × Except Error Unit :=
  let st := st.getPool cfg.default_dbname
  let st := st.addStmt cfg.default_dbname (.queryUserPermissions connecting_user)
  match lookupRole st.server connecting_user with
  | none => (st, .error .Internal)
  | some u =>
    if !(u.create_role && u.create_db) then
      (st, .error .InvalidPermissions)
    else
      let st := st.addStmt cfg.default_dbname (.queryUserPermissions ("pgbouncer"))
      match lookupRole st.server ("pgbouncer") with
      | some _ => (st, .ok ())
      | none =>
        let st := st.addStmt cfg.default_dbname (.exec (createUserStmt ("pgbouncer")))
        ({ st with server := st.server.addRole (newManagedRole ("pgbouncer") none) },
          .ok ())

/-- Embedding of `Databases::new` (src/server/database.rs lines 63-91): build
the configuration from the options and run `ensure_configuration` once against
a fresh registry and trace over the given server state. -/
def Databases.new (default_dbname username : String) (sv : ServerState) :
    Except Error (Databases × State) :=
  let cfg : Databases := ⟨default_dbname, username⟩
  let r := cfg.ensure_configuration username ⟨sv, [], []⟩
  match r.snd with
  | .ok _ => .ok (cfg, r.fst)
  | .error e => .error e

/-- Pool registry keys, i.e. `Databases::managed_databases`
(src/server/database.rs lines 142-145). -/
def Databases.managed_databases (st : State) : List String :=
  st.registry

/-- Registry membership test, i.e. `Databases::is_managed`
(src/server/database.rs lines 148-151). -/
def Databases.is_managed (st : State) (database : String) : Bool :=
  st.registry.contains database

/-- Embedding of `Database::ensure_schema` (src/server/database.rs lines
312-322) on the pool bound to `pool`: CREATE SCHEMA IF NOT EXISTS pgbouncer
then GRANT USAGE; the model tracks schema presence per database and does not
track privileges. -/
def Database.ensure_schema (pool : String) (st : State) : State × Except Error Unit :=
  let st := st.addStmt pool (.exec ("CREATE SCHEMA IF NOT EXISTS pgbouncer"))
  let st := { st with server := { st.server with
    schemas := registryInsert st.server.schemas pool } }
  let st := st.addStmt pool (.exec ("GRANT USAGE ON SCHEMA pgbouncer TO pgbouncer"))
  (st, .ok ())

/-- Embedding of `Database::ensure_authentication_query`
(src/server/database.rs lines 326-349): `fetch_one` on the schema oid fails as
a driver error when the schema is absent; install `pgbouncer.user_lookup` when
missing; then always REVOKE and GRANT EXECUTE. -/
def Database.ensure_authentication_query (pool : String) (st : State) :
    State × Except Error Unit :=
  let st := st.addStmt pool .querySchemaOid
  if pool ∈ st.server.schemas then
    let st := st.addStmt pool .queryUserLookupOid
    let st :=
      if pool ∈ st.server.lookup_fns then st
      else
        let st := st.addStmt pool (.exec authenticationQueryFunctionSql)
        { st with server := { st.server with
            lookup_fns := registryInsert st.server.lookup_fns pool } }
    let st := st.addStmt pool
      (.exec ("REVOKE ALL ON FUNCTION pgbouncer.user_lookup(text) FROM public, pgbouncer"))
    let st := st.addStmt pool
      (.exec ("GRANT EXECUTE ON FUNCTION pgbouncer.user_lookup(text) TO pgbouncer"))
    (st, .ok ())
  else
    (st, .error .Internal)

/-- Modelled from the spec: the user upsert of spec section 4.2 step 1
(ALTER USER ... WITH PASSWORD when the role exists, CREATE USER ... PASSWORD
when it does not). -/
def upsertUserStage (cfg : Databases) (name password : String) (st : State) : State :=
  let st := st.addStmt cfg.default_dbname (.queryUserPermissions name)
  match lookupRole st.server name with
  | some _ =>
    let st := st.addStmt cfg.default_dbname (.exec (alterUserPasswordStmt name password))
    { st with server := st.server.setRolePassword name password }
  | none =>
    let st := st.addStmt cfg.default_dbname
      (.exec (createUserWithPasswordStmt name password))
    { st with server := st.server.addRole (newManagedRole name (some password)) }

/-- Modelled from the spec: the database upsert of spec section 4.2 step 2
(CREATE DATABASE ... WITH OWNER when absent, ALTER DATABASE ... OWNER TO when
present). -/
def upsertDatabaseStage (cfg : Databases) (name : String) (st : State) : State :=
  let st := st.addStmt cfg.default_dbname (.queryDatabaseOid name)
  match lookupDb st.server name with
  | none =>
    let st := st.addStmt cfg.default_dbname (.exec (createDatabaseStmt name))
    { st with server := st.server.addDb ⟨name, name⟩ }
  | some _ =>
    let st := st.addStmt cfg.default_dbname (.exec (alterDatabaseOwnerStmt name name))
    { st with server := st.server.setDbOwner name name }

/-- Modelled from the spec: `Databases::ensure(name, password)` is invoked from
the operator apply branch (src/server/operator.rs line 252) but its definition
is absent from src/ (src/server/database.rs defines only `ensure_exists`).
Following spec section 4.2: refuse the default database; upsert the user;
upsert the database; then on the pool bound to `name` install the auth schema
and the lookup function. -/
def Databases.ensure (cfg : Databases) (name password : String) (st : State) :
    State × Except Error Unit :=
  if name = cfg.default_dbname then
    (st, .error .DefaultDatabase)
  else
    let st := st.getPool cfg.default_dbname
    let st := upsertUserStage cfg name password st
    let st := upsertDatabaseStage cfg name st
    let st := st.getPool name
    let r1 := Database.ensure_schema name st
    match r1.snd with
    | .error e => (r1.fst, .error e)
    | .ok _ =>
      let r2 := Database.ensure_authentication_query name r1.fst
      match r2.snd with
      | .error e => (r2.fst, .error e)
      | .ok _ => (r2.fst, .ok ())

/-- Commands sent on the controller channel (src/server/controller.rs lines
65-76).  The `Create` variant's oneshot result sender is modelled by the value
`handle_command` reports back. -/
inductive Command where
  | Create (database : String)
  | Check (database : String)
  | Remove (database : String) (retain : Bool)
  | Halt
deriving Repr, DecidableEq

/-- State shared between the HTTP handlers and the controller task: the
connection-manager state and the queue of commands sent but not yet
processed. -/
structure ControllerState where
  db : State
  queue : List Command
deriving Repr, DecidableEq

/-- Embedding of `handle_command` (src/server/controller.rs lines 124-154).
Returns the updated state, whether the processor loop halts, and the value
sent on a `Create` command's oneshot channel (`none` when the sender is
dropped because `fail!` returned early).  Every error is only logged: all
commands except `Halt` leave the loop running. -/
def handle_command (cfg : Databases) (g : Nat → Nat) (st : State) (c : Command) :
    State × Bool × Option (Option String) :=
  match c with
  | .Create database =>
    let r := cfg.ensure_exists g database st
    match r.snd with
    | .error _ => (r.fst, false, none)
    | .ok (pool, password) =>
      let r1 := Database.ensure_schema pool r.fst
      match r1.snd with
      | .error _ => (r1.fst, false, some password)
      | .ok _ =>
        let r2 := Database.ensure_authentication_query pool r1.fst
        match r2.snd with
        | .error _ => (r2.fst, false, some password)
        | .ok _ => (r2.fst, false, some password)
  | .Check database =>
    let st := st.getPool database
    let r1 := Database.ensure_schema database st
    match r1.snd with
    | .error _ => (r1.fst, false, none)
    | .ok _ =>
      let r2 := Database.ensure_authentication_query database r1.fst
      match r2.snd with
      | .error _ => (r2.fst, false, none)
      | .ok _ => (r2.fst, false, none)
  | .Remove database retain =>
    let r := cfg.remove database retain st
    match r.snd with
    | .error _ => (r.fst, false, none)
    | .ok _ => (r.fst, false, none)
  | .Halt => (st, true, none)

/-- An HTTP response: status code and body text. -/
structure HttpResponse where
  status : Nat
  body : String
deriving Repr, DecidableEq

/-- Request body of POST /databases as the server deserializes it
(src/server/http/database.rs lines 15-18): only a `name` field. -/
structure CreateRequest where
  name : String
deriving Repr, DecidableEq

/-- Serde-style deserialization of the POST /databases body from a JSON object
(modelled as its string fields): the derived deserializer requires `name` and
ignores unknown fields such as `password`. -/
def parseCreateRequest (fields : List (String × String)) : Option CreateRequest :=
  match fields.lookup ("name") with
  | some n => some ⟨n⟩
  | none => none

/-- Axum `Json` serialization of `CreateResponse`
(src/server/http/database.rs lines 20-23). -/
def serializeCreateResponse (password : Option String) : String :=
  match password with
  | some p => "\x7b\"password\":\"" ++ p ++ "\"\x7d"
  | none => "\x7b\"password\":null\x7d"

/-- Embedding of the POST /databases handler `create`
(src/server/http/database.rs lines 26-32): `controller.create(name).await`
sends `Command::Create` and blocks on its oneshot; the processor replies right
after `ensure_exists` succeeds, and the handler then returns the axum `Json`
response (status 200).  When the command fails before the send, the sender is
dropped and the handler produces no JSON response (`none`). -/
def database_create (cfg : Databases) (g : Nat → Nat) (req : CreateRequest)
    (cs : ControllerState) : Option HttpResponse × ControllerState :=
  let r := handle_command cfg g cs.db (.Create req.name)
  let cs' : ControllerState := ⟨r.fst, cs.queue⟩
  match r.snd.snd with
  | some password => (some ⟨200, serializeCreateResponse password⟩, cs')
  | none => (none, cs')

/-- Embedding of the DELETE /databases/:database handler `delete`
(src/server/http/database.rs lines 54-66): when the name is managed, enqueue
`Command::Remove` (retain defaults to false) and reply 204 immediately;
otherwise 404.  The database state is untouched at response time. -/
def database_delete (name : String) (retain : Option Bool) (cs : ControllerState) :
    HttpResponse × ControllerState :=
  if Databases.is_managed cs.db name then
    (⟨204, ""⟩, ⟨cs.db, cs.queue ++ [.Remove name (retain.getD false)]⟩)
  else
    (⟨404, ""⟩, cs)

/-- Embedding of the PUT /databases/:database handler `check`
(src/server/http/database.rs lines 35-46): when the name is managed, enqueue
`Command::Check` and reply 204 immediately; otherwise 404. -/
def database_check (name : String) (cs : ControllerState) :
    HttpResponse × ControllerState :=
  if Databases.is_managed cs.db name then
    (⟨204, ""⟩, ⟨cs.db, cs.queue ++ [.Check name]⟩)
  else
    (⟨404, ""⟩, cs)

/-- Password field of the Database custom resource
(src/server/operator.rs lines 400-403). -/
inductive DatabasePassword where
  | Value (v : String)
  | FromSecret (name key ns : String)
deriving Repr, DecidableEq

/-- Connection-secret section of the custom resource spec
(src/server/operator.rs lines 416-425). -/
structure DatabaseSecretSpec where
  name : Option String
  namespaces : List String
deriving Repr, DecidableEq

/-- Spec of the Database custom resource (src/server/operator.rs lines
386-396). -/
structure DatabaseSpec where
  password : DatabasePassword
  retain_on_delete : Bool
  secret : DatabaseSecretSpec
deriving Repr, DecidableEq

/-- A Database custom resource: its metadata name and spec. -/
structure DatabaseCR where
  metadata_name : Option String
  spec : DatabaseSpec
deriving Repr, DecidableEq

/-- Kubernetes API errors, kept as their HTTP status code. -/
inductive KubeError where
  | Api (code : Nat)
deriving Repr, DecidableEq

/-- Operator error enum (src/server/operator.rs lines 429-443). -/
inductive OperatorError where
  | NoName
  | NoPassword
  | InvalidPassword
  | Database (e : Error)
  | Kubernetes (e : KubeError)
deriving Repr, DecidableEq

/-- Reconciler actions (kube runtime `Action`). -/
inductive Action where
  | awaitChange
  | requeue (seconds : Nat)
deriving Repr, DecidableEq

/-- The cluster's secrets: ((namespace, secret name), string data). -/
abbrev Cluster := List ((String × String) × List (String × String))

/-- Kubernetes `Api::<Secret>::delete` semantics: deleting an absent secret
fails with an API 404 error, which the source does not catch. -/
def secretDelete (cluster : Cluster) (ns name : String) : Except KubeError Cluster :=
  if (ns, name) ∈ cluster.map Prod.fst then
    .ok (cluster.filter (fun e => !(e.fst == (ns, name))))
  else
    .error (.Api 404)

/-- The secret-deletion loop of the cleanup branch (src/server/operator.rs
lines 334-339): delete in each namespace in order, propagating the first
error with `?`. -/
def deleteSecrets (cluster : Cluster) (secret_name : String) (nss : List String) :
    Cluster × Except KubeError Unit :=
  match nss with
  | [] => (cluster, .ok ())
  | ns :: rest =>
    match secretDelete cluster ns secret_name with
    | .error e => (cluster, .error e)
    | .ok cluster' => deleteSecrets cluster' secret_name rest

/-- Embedding of `name_for_database` (src/server/operator.rs lines 344-346). -/
def name_for_database (cr : DatabaseCR) : Except OperatorError String :=
  match cr.metadata_name with
  | some n => .ok n
  | none => .error .NoName

/-- Embedding of `secret_name_for_database` (src/server/operator.rs lines
348-356); the source unwraps the metadata name, which every caller has already
resolved through `name_for_database`, so the resolved name is passed in. -/
def secret_name_for_database (cr : DatabaseCR) (name : String) : String :=
  cr.spec.secret.name.getD ("database-" ++ name ++ "-secret")

/-- Embedding of the operator cleanup branch (src/server/operator.rs lines
327-342): resolve the name, run `Databases::remove` with `retainOnDelete`,
then delete the replicated secret in each listed namespace (errors, including
404 on an absent secret, propagate), and finally return await-change. -/
def cleanup (cfg : Databases) (cr : DatabaseCR) (st : State) (cluster : Cluster) :
    (State × Cluster) × Except OperatorError Action :=
  match name_for_database cr with
  | .error e => ((st, cluster), .error e)
  | .ok name =>
    let r := cfg.remove name cr.spec.retain_on_delete st
    match r.snd with
    | .error e => ((r.fst, cluster), .error (.Database e))
    | .ok _ =>
      let secret_name := secret_name_for_database cr name
      let d := deleteSecrets cluster secret_name cr.spec.secret.namespaces
      match d.snd with
      | .error e => ((r.fst, d.fst), .error (.Kubernetes e))
      | .ok _ => ((r.fst, d.fst), .ok .awaitChange)

/-- One state transition of the running system: any entry point of the
connection manager or a controller command. -/
inductive Step (cfg : Databases) : State → State → Prop where
  | ensure_exists (g : Nat → Nat) (database : String) (st : State) :
      Step cfg st (cfg.ensure_exists g database st).fst
  | ensure (name password : String) (st : State) :
      Step cfg st (cfg.ensure name password st).fst
  | remove (database : String) (retain : Bool) (st : State) :
      Step cfg st (cfg.remove database retain st).fst
  | get (database : String) (st : State) :
      Step cfg st (st.getPool database)
  | ensure_schema (pool : String) (st : State) :
      Step cfg st (Database.ensure_schema pool st).fst
  | ensure_authentication_query (pool : String) (st : State) :
      Step cfg st (Database.ensure_authentication_query pool st).fst
  | command (g : Nat → Nat) (c : Command) (st : State) :
      Step cfg st (handle_command cfg g st c).fst

/-- States reachable after a successful `Databases::new` bootstrap. -/
inductive Reachable (cfg : Databases) : State → Prop where
  | boot (sv : ServerState) (st : State)
      (h : Databases.new cfg.default_dbname cfg.default_username sv = .ok (cfg, st)) :
      Reachable cfg st
  | step (st st' : State) (h : Reachable cfg st) (hs : Step cfg st st') :
      Reachable cfg st'

/-- First character of an identifier in the class `[A-Za-z_]`. -/
def isIdentStart (c : Char) : Bool :=
  (('A' ≤ c && c ≤ 'Z') || ('a' ≤ c && c ≤ 'z') || c == '_')

/-- Later character of an identifier in the class `[A-Za-z0-9_]`. -/
def isIdentChar (c : Char) : Bool :=
  (isIdentStart c || ('0' ≤ c && c ≤ '9'))

/-- Membership in the character class `[A-Za-z_][A-Za-z0-9_]*` the spec
requires database and role names to be validated against. -/
def isValidName (s : String) : Bool :=
  match s.toList with
  | [] => false
  | c :: rest => isIdentStart c && rest.all isIdentChar

/-- Alphanumeric character test, for the generated-password property. -/
def isAlphanumeric (c : Char) : Bool :=
  (('A' ≤ c && c ≤ 'Z') || ('a' ≤ c && c ≤ 'z') || ('0' ≤ c && c ≤ '9'))

/-- Catalog well-formedness: role and database names are keys, so no two rows
share one. -/
def wellFormed (sv : ServerState) : Prop :=
  (sv.roles.map Role.username).Nodup ∧ (sv.dbs.map Db.datname).Nodup

/-- Example administrative configuration used by concrete runs. -/
def demoCfg : Databases := ⟨"postgres", "admin"⟩

/-- Example server state at process startup: the administrative role with
CREATE ROLE and CREATE DB, the default database, and no pgbouncer role yet. -/
def demoServer : ServerState :=
  ⟨[⟨"admin", true, true, true, false, false, none⟩], [⟨"postgres", "admin"⟩], [], []⟩

/-- The connection-manager state right after `Databases::new` bootstraps
against `demoServer`. -/
def demoBootState : State :=
  (demoCfg.ensure_configuration ("admin") ⟨demoServer, [], []⟩).fst

/-- Controller state at startup over the bootstrapped manager. -/
def demoController : ControllerState := ⟨demoBootState, []⟩

/-- A custom resource named alpha replicating its secret to one namespace,
used for concrete cleanup runs. -/
def exampleCR : DatabaseCR :=
  ⟨some ("alpha"), ⟨.Value ("pw"), false, ⟨none, [("team-a")]⟩⟩⟩

/-- A manager state in which role and database alpha exist, so that
`Databases::remove` succeeds. -/
def exampleRemovableState : State :=
  ⟨⟨[newManagedRole ("alpha") none], [⟨"alpha", "alpha"⟩], [], []⟩, [], []⟩

section Theorems

@[simp]
theorem addStmt_server (st : State) (db : String) (op : SqlOp) :
    (st.addStmt db op).server = st.server := rfl

@[simp]
theorem addStmt_registry (st : State) (db : String) (op : SqlOp) :
    (st.addStmt db op).registry = st.registry := rfl

@[simp]
theorem addStmt_trace (st : State) (db : String) (op : SqlOp) :
    (st.addStmt db op).trace = st.trace ++ [⟨db, op⟩] := rfl

@[simp]
theorem getPool_server (st : State) (name : String) :
    (st.getPool name).server = st.server := rfl

@[simp]
theorem getPool_trace (st : State) (name : String) :
    (st.getPool name).trace = st.trace := rfl

@[simp]
theorem getPool_registry (st : State) (name : String) :
    (st.getPool name).registry = registryInsert st.registry name := rfl

theorem mem_registryInsert_self (reg : List String) (name : String) :
    name ∈ registryInsert reg name := by
  unfold registryInsert
  split
  · assumption
  · simp

theorem mem_registryInsert_of_mem (reg : List String) (x y : String) (h : x ∈ reg) :
    x ∈ registryInsert reg y := by
  unfold registryInsert
  split
  · exact h
  · simp [h]

theorem ensureUserStage_registry (cfg : Databases) (g : Nat → Nat)
    (database : String) (st : State) :
    (ensureUserStage cfg g database st).fst.registry = st.registry := by
  unfold ensureUserStage
  dsimp only
  split <;> rfl

theorem ensureDbStage_registry (cfg : Databases) (database : String) (st : State) :
    (ensureDbStage cfg database st).registry = st.registry := by
  unfold ensureDbStage
  dsimp only
  split <;> rfl

theorem upsertUserStage_registry (cfg : Databases) (name password : String)
    (st : State) :
    (upsertUserStage cfg name password st).registry = st.registry := by
  unfold upsertUserStage
  dsimp only
  split <;> rfl

theorem upsertDatabaseStage_registry (cfg : Databases) (name : String) (st : State) :
    (upsertDatabaseStage cfg name st).registry = st.registry := by
  unfold upsertDatabaseStage
  dsimp only
  split <;> rfl

theorem ensure_exists_registry (cfg : Databases) (g : Nat → Nat) (database : String)
    (st : State) (h : database ≠ cfg.default_dbname) :
    (cfg.ensure_exists g database st).fst.registry =
      registryInsert (registryInsert st.registry cfg.default_dbname) database := by
  unfold Databases.ensure_exists
  rw [if_neg h]
  simp [ensureUserStage_registry, ensureDbStage_registry]

theorem ensure_configuration_registry (cfg : Databases) (user : String) (st : State) :
    (cfg.ensure_configuration user st).fst.registry =
      registryInsert st.registry cfg.default_dbname := by
  unfold Databases.ensure_configuration
  simp only [addStmt_server, getPool_server]
  split
  · rfl
  · split
    · rfl
    · split <;> rfl

theorem remove_registry (cfg : Databases) (database : String) (retain : Bool)
    (st : State) (h : database ≠ cfg.default_dbname) :
    (cfg.remove database retain st).fst.registry =
      registryInsert (st.registry.erase database) cfg.default_dbname := by
  cases retain <;>
    (unfold Databases.remove
     rw [if_neg h]
     simp only [addStmt_server, getPool_server, Bool.false_eq_true, if_true, if_false]
     split
     · rfl
     · split <;> rfl)

theorem ensure_schema_eq (pool : String) (st : State) :
    Database.ensure_schema pool st =
      ({ server := { st.server with schemas := registryInsert st.server.schemas pool },
         registry := st.registry,
         trace := st.trace ++ [⟨pool, .exec ("CREATE SCHEMA IF NOT EXISTS pgbouncer")⟩,
           ⟨pool, .exec ("GRANT USAGE ON SCHEMA pgbouncer TO pgbouncer")⟩] }, .ok ()) := by
  simp [Database.ensure_schema, State.addStmt]

theorem ensure_authentication_query_spec (pool : String) (st : State) :
    (Database.ensure_authentication_query pool st).fst.registry = st.registry ∧
    (Database.ensure_authentication_query pool st).fst.server.roles = st.server.roles ∧
    (Database.ensure_authentication_query pool st).fst.server.dbs = st.server.dbs ∧
    (∃ t, (Database.ensure_authentication_query pool st).fst.trace = st.trace ++ t) ∧
    (pool ∈ st.server.schemas →
      (Database.ensure_authentication_query pool st).snd = .ok ()) := by
  unfold Database.ensure_authentication_query
  dsimp only
  simp only [addStmt_server, addStmt_registry, addStmt_trace, getPool_server]
  split
  · split
    · refine ⟨rfl, rfl, rfl,
        ⟨[⟨pool, .querySchemaOid⟩, ⟨pool, .queryUserLookupOid⟩,
          ⟨pool, .exec ("REVOKE ALL ON FUNCTION pgbouncer.user_lookup(text) FROM public, pgbouncer")⟩,
          ⟨pool, .exec ("GRANT EXECUTE ON FUNCTION pgbouncer.user_lookup(text) TO pgbouncer")⟩],
          by simp⟩, fun _ => rfl⟩
    · refine ⟨rfl, rfl, rfl,
        ⟨[⟨pool, .querySchemaOid⟩, ⟨pool, .queryUserLookupOid⟩,
          ⟨pool, .exec authenticationQueryFunctionSql⟩,
          ⟨pool, .exec ("REVOKE ALL ON FUNCTION pgbouncer.user_lookup(text) FROM public, pgbouncer")⟩,
          ⟨pool, .exec ("GRANT EXECUTE ON FUNCTION pgbouncer.user_lookup(text) TO pgbouncer")⟩],
          by simp⟩, fun _ => rfl⟩
  · next hmem =>
      exact ⟨rfl, rfl, rfl, ⟨[⟨pool, .querySchemaOid⟩], by simp⟩, fun hc => absurd hc hmem⟩

theorem ensure_registry (cfg : Databases) (name password : String) (st : State)
    (h : name ≠ cfg.default_dbname) :
    (cfg.ensure name password st).fst.registry =
      registryInsert (registryInsert st.registry cfg.default_dbname) name := by
  unfold Databases.ensure
  rw [if_neg h]
  simp only [ensure_schema_eq]
  split <;>
    simp [(ensure_authentication_query_spec _ _).1, upsertUserStage_registry,
      upsertDatabaseStage_registry]

@[simp]
theorem mem_registryInsert_iff (reg : List String) (x y : String) :
    x ∈ registryInsert reg y ↔ (x ∈ reg ∨ x = y) := by
  unfold registryInsert
  split
  · next hy => exact ⟨Or.inl, fun h => h.elim id (fun hx => hx ▸ hy)⟩
  · simp

theorem ensure_exists_default_eq (cfg : Databases) (g : Nat → Nat)
    (database : String) (st : State) (h : database = cfg.default_dbname) :
    cfg.ensure_exists g database st = (st, .error .DefaultDatabase) := by
  unfold Databases.ensure_exists
  rw [if_pos h]

theorem ensure_default_eq (cfg : Databases) (name password : String) (st : State)
    (h : name = cfg.default_dbname) :
    cfg.ensure name password st = (st, .error .DefaultDatabase) := by
  unfold Databases.ensure
  rw [if_pos h]

theorem remove_default_eq (cfg : Databases) (database : String) (retain : Bool)
    (st : State) (h : database = cfg.default_dbname) :
    cfg.remove database retain st = (st, .error .DefaultDatabase) := by
  unfold Databases.remove
  rw [if_pos h]

theorem ensure_exists_eq (cfg : Databases) (g : Nat → Nat) (database : String)
    (st : State) (h : database ≠ cfg.default_dbname) :
    cfg.ensure_exists g database st =
      ((ensureDbStage cfg database
          (ensureUserStage cfg g database (st.getPool cfg.default_dbname)).fst).getPool
        database,
       .ok (database,
         (ensureUserStage cfg g database (st.getPool cfg.default_dbname)).snd)) := by
  unfold Databases.ensure_exists
  rw [if_neg h]

theorem ensure_exists_default_mem (cfg : Databases) (g : Nat → Nat)
    (database : String) (st : State) (h : cfg.default_dbname ∈ st.registry) :
    cfg.default_dbname ∈ (cfg.ensure_exists g database st).fst.registry := by
  by_cases hd : database = cfg.default_dbname
  · rw [ensure_exists_default_eq cfg g database st hd]
    exact h
  · rw [ensure_exists_registry cfg g database st hd]
    simp

theorem ensure_default_mem (cfg : Databases) (name password : String) (st : State)
    (h : cfg.default_dbname ∈ st.registry) :
    cfg.default_dbname ∈ (cfg.ensure name password st).fst.registry := by
  by_cases hd : name = cfg.default_dbname
  · rw [ensure_default_eq cfg name password st hd]
    exact h
  · rw [ensure_registry cfg name password st hd]
    simp

theorem remove_default_mem (cfg : Databases) (database : String) (retain : Bool)
    (st : State) (h : cfg.default_dbname ∈ st.registry) :
    cfg.default_dbname ∈ (cfg.remove database retain st).fst.registry := by
  by_cases hd : database = cfg.default_dbname
  · rw [remove_default_eq cfg database retain st hd]
    exact h
  · rw [remove_registry cfg database retain st hd]
    simp

theorem ensure_authentication_query_default_mem (cfg : Databases) (pool : String)
    (st : State) (h : cfg.default_dbname ∈ st.registry) :
    cfg.default_dbname ∈ (Database.ensure_authentication_query pool st).fst.registry := by
  rw [(ensure_authentication_query_spec pool st).1]
  exact h

theorem handle_command_default_mem (cfg : Databases) (g : Nat → Nat) (st : State)
    (c : Command) (h : cfg.default_dbname ∈ st.registry) :
    cfg.default_dbname ∈ (handle_command cfg g st c).fst.registry := by
  cases c with
  | Create database =>
    by_cases hd : database = cfg.default_dbname
    · simp only [handle_command, ensure_exists_default_eq cfg g database st hd]
      exact h
    · simp only [handle_command, ensure_exists_eq cfg g database st hd, ensure_schema_eq]
      split <;>
        simp [(ensure_authentication_query_spec _ _).1, ensureDbStage_registry,
          ensureUserStage_registry, h]
  | Check database =>
    simp only [handle_command, ensure_schema_eq]
    split <;>
      simp [(ensure_authentication_query_spec _ _).1, h]
  | Remove database retain =>
    have := remove_default_mem cfg database retain st h
    simp only [handle_command]
    split <;> assumption
  | Halt => exact h

theorem new_ok_default_mem (cfg : Databases) (sv : ServerState) (st : State)
    (h : Databases.new cfg.default_dbname cfg.default_username sv = .ok (cfg, st)) :
    cfg.default_dbname ∈ st.registry := by
  unfold Databases.new at h
  rw [show (Databases.mk cfg.default_dbname cfg.default_username) = cfg from rfl] at h
  dsimp only at h
  cases hsnd : (cfg.ensure_configuration cfg.default_username ⟨sv, [], []⟩).snd with
  | error e =>
    rw [hsnd] at h
    simp at h
  | ok u =>
    rw [hsnd] at h
    simp only [Except.ok.injEq, Prod.mk.injEq] at h
    obtain ⟨-, h2⟩ := h
    rw [← h2, ensure_configuration_registry]
    simp

theorem filter_eq_single_of_find? {α β : Type} [BEq β] [LawfulBEq β] (key : α → β)
    (l : List α) (b : β) (hnd : (l.map key).Nodup) (r : α)
    (h : l.find? (fun x => key x == b) = some r) :
    l.filter (fun x => key x == b) = [r] := by
  induction l with
  | nil => simp at h
  | cons a t ih =>
    rw [List.map_cons, List.nodup_cons] at hnd
    cases hpa : (key a == b) with
    | false =>
      rw [@List.find?_cons_of_neg _ (fun x => key x == b) a t (by simp [hpa])] at h
      rw [@List.filter_cons_of_neg _ (fun x => key x == b) a t (by simp [hpa])]
      exact ih hnd.2 h
    | true =>
      rw [@List.find?_cons_of_pos _ (fun x => key x == b) a t hpa] at h
      injection h with h1
      subst h1
      rw [@List.filter_cons_of_pos _ (fun x => key x == b) a t hpa]
      have hkey : key a = b := eq_of_beq hpa
      have : t.filter (fun x => key x == b) = [] := by
        rw [List.filter_eq_nil_iff]
        intro x hx
        have hne : key x ≠ key a :=
          fun he => hnd.1 (he ▸ List.mem_map_of_mem key hx)
        simp [hkey ▸ hne]
      rw [this]

theorem find?_of_filter_single {α : Type} (p : α → Bool) (l : List α) (r : α)
    (h : l.filter p = [r]) : l.find? p = some r := by
  induction l with
  | nil => simp at h
  | cons a t ih =>
    cases hpa : p a with
    | false =>
      rw [@List.filter_cons_of_neg _ p a t (by simp [hpa])] at h
      rw [@List.find?_cons_of_neg _ p a t (by simp [hpa])]
      exact ih h
    | true =>
      rw [@List.filter_cons_of_pos _ p a t hpa] at h
      injection h with h1 h2
      rw [@List.find?_cons_of_pos _ p a t hpa, h1]

theorem filter_key_map_update {α β : Type} [BEq β] (key : α → β) (upd : α → α)
    (hkey : ∀ x, key (upd x) = key x) (l : List α) (b : β) :
    (l.map (fun x => if key x == b then upd x else x)).filter (fun x => key x == b) =
      (l.filter (fun x => key x == b)).map upd := by
  rw [List.filter_map]
  have h1 : ∀ x ∈ l,
      ((fun x => key x == b) ∘ (fun x => if key x == b then upd x else x)) x =
        (fun x => key x == b) x := by
    intro x _
    by_cases hx : (key x == b) = true
    · simp [hx, hkey]
    · simp [hx]
  rw [List.filter_congr h1]
  apply List.map_congr_left
  intro a ha
  rw [List.mem_filter] at ha
  simp [ha.2]

theorem map_key_update {α β : Type} [BEq β] (key : α → β) (upd : α → α)
    (hkey : ∀ x, key (upd x) = key x) (l : List α) (b : β) :
    (l.map (fun x => if key x == b then upd x else x)).map key = l.map key := by
  rw [List.map_map]
  apply List.map_congr_left
  intro a _
  by_cases hx : (key a == b) = true
  · simp [hx, hkey]
  · simp [hx]

@[simp]
theorem setDbOwner_roles (sv : ServerState) (n o : String) :
    (sv.setDbOwner n o).roles = sv.roles := rfl

@[simp]
theorem dropDb_roles (sv : ServerState) (n : String) :
    (sv.dropDb n).roles = sv.roles := rfl

@[simp]
theorem addDb_roles (sv : ServerState) (d : Db) :
    (sv.addDb d).roles = sv.roles := rfl

@[simp]
theorem addRole_roles (sv : ServerState) (r : Role) :
    (sv.addRole r).roles = sv.roles ++ [r] := rfl

@[simp]
theorem addRole_dbs (sv : ServerState) (r : Role) :
    (sv.addRole r).dbs = sv.dbs := rfl

@[simp]
theorem setRolePassword_dbs (sv : ServerState) (n p : String) :
    (sv.setRolePassword n p).dbs = sv.dbs := rfl

@[simp]
theorem dropRole_dbs (sv : ServerState) (n : String) :
    (sv.dropRole n).dbs = sv.dbs := rfl

@[simp]
theorem addDb_dbs (sv : ServerState) (d : Db) :
    (sv.addDb d).dbs = sv.dbs ++ [d] := rfl

@[simp]
theorem lookupRole_setDbOwner (sv : ServerState) (n o x : String) :
    lookupRole (sv.setDbOwner n o) x = lookupRole sv x := rfl

@[simp]
theorem lookupRole_dropDb (sv : ServerState) (n x : String) :
    lookupRole (sv.dropDb n) x = lookupRole sv x := rfl

@[simp]
theorem lookupRole_addDb (sv : ServerState) (d : Db) (x : String) :
    lookupRole (sv.addDb d) x = lookupRole sv x := rfl

@[simp]
theorem lookupDb_addRole (sv : ServerState) (r : Role) (x : String) :
    lookupDb (sv.addRole r) x = lookupDb sv x := rfl

@[simp]
theorem lookupDb_setRolePassword (sv : ServerState) (n p x : String) :
    lookupDb (sv.setRolePassword n p) x = lookupDb sv x := rfl

@[simp]
theorem lookupDb_dropRole (sv : ServerState) (n x : String) :
    lookupDb (sv.dropRole n) x = lookupDb sv x := rfl

theorem lookupRole_dropRole_self (sv : ServerState) (name : String) :
    lookupRole (sv.dropRole name) name = none := by
  unfold lookupRole ServerState.dropRole
  dsimp only
  rw [List.find?_eq_none]
  intro x hx
  rw [List.mem_filter] at hx
  simpa using hx.2

theorem lookupDb_dropDb_self (sv : ServerState) (name : String) :
    lookupDb (sv.dropDb name) name = none := by
  unfold lookupDb ServerState.dropDb
  dsimp only
  rw [List.find?_eq_none]
  intro x hx
  rw [List.mem_filter] at hx
  simpa using hx.2

/-- C7: for a non-default name, `remove` first evicts the pool for `name`
(and re-registers only the default pool), then on the default pool executes
ALTER DATABASE ... OWNER TO the administrative user when `retain`, or DROP
DATABASE otherwise, and then DROP USER, in exactly that order; when it
succeeds with `retain = false` the registry no longer contains `name` and
neither the role nor the database named `name` survives. -/
theorem c7_remove_order_and_drop (cfg : Databases) (name : String) (retain : Bool)
    (st : State) (hname : name ≠ cfg.default_dbname) (hreg : st.registry.Nodup) :
    (cfg.remove name retain st).fst.registry =
      registryInsert (st.registry.erase name) cfg.default_dbname ∧
    ((cfg.remove name retain st).snd = .ok () →
      (cfg.remove name retain st).fst.trace = st.trace ++
        [⟨cfg.default_dbname, .exec (if retain then alterDatabaseOwnerStmt name cfg.default_username
            else dropDatabaseStmt name)⟩,
         ⟨cfg.default_dbname, .exec (dropUserStmt name)⟩]) ∧
    ((cfg.remove name retain st).snd = .ok () → retain = false →
      name ∉ (cfg.remove name retain st).fst.registry ∧
      lookupRole (cfg.remove name retain st).fst.server name = none ∧
      lookupDb (cfg.remove name retain st).fst.server name = none) := by
  have hnotmem : name ∉ registryInsert (st.registry.erase name) cfg.default_dbname := by
    rw [mem_registryInsert_iff]
    rintro (hin | heq)
    · exact hreg.not_mem_erase hin
    · exact hname heq
  cases retain with
  | false =>
    unfold Databases.remove
    rw [if_neg hname]
    dsimp only
    simp only [addStmt_server, getPool_server, Bool.false_eq_true, if_false]
    cases hdb : lookupDb st.server name with
    | none =>
      refine ⟨rfl, ?_, ?_⟩ <;> intro hok <;> simp at hok
    | some d =>
      simp only [lookupRole_dropDb, addStmt_server]
      cases hrole : lookupRole st.server name with
      | none =>
        refine ⟨rfl, ?_, ?_⟩ <;> intro hok <;> simp at hok
      | some r =>
        refine ⟨rfl, fun _ => ?_, fun _ _ => ⟨hnotmem, ?_, ?_⟩⟩
        · simp [State.addStmt, State.getPool]
        · exact lookupRole_dropRole_self _ _
        · rw [lookupDb_dropRole]
          exact lookupDb_dropDb_self _ _
  | true =>
    unfold Databases.remove
    rw [if_neg hname]
    dsimp only
    simp only [addStmt_server, getPool_server, if_true]
    cases hdb : lookupDb st.server name with
    | none =>
      refine ⟨rfl, ?_, ?_⟩ <;> intro hok <;> simp at hok
    | some d =>
      simp only [lookupRole_setDbOwner, addStmt_server]
      cases hrole : lookupRole st.server name with
      | none =>
        refine ⟨rfl, ?_, ?_⟩ <;> intro hok <;> simp at hok
      | some r =>
        refine ⟨rfl, fun _ => ?_, fun _ hfalse => by simp at hfalse⟩
        simp [State.addStmt, State.getPool]

/-- C7 witness: removing the database alpha with `retain = false` from a
state where its pool, role and database all exist. -/
theorem c7_remove_order_and_drop_witness :
    ("alpha" ≠ demoCfg.default_dbname) ∧
    ((demoCfg.remove ("alpha") false
        { exampleRemovableState with registry := ["alpha"] }).snd = .ok () →
      ("alpha" ∉ (demoCfg.remove ("alpha") false
          { exampleRemovableState with registry := ["alpha"] }).fst.registry ∧
        lookupRole (demoCfg.remove ("alpha") false
          { exampleRemovableState with registry := ["alpha"] }).fst.server ("alpha") = none ∧
        lookupDb (demoCfg.remove ("alpha") false
          { exampleRemovableState with registry := ["alpha"] }).fst.server ("alpha") = none)) := by
  refine ⟨by decide, fun hok => ?_⟩
  exact (c7_remove_order_and_drop demoCfg ("alpha") false
      { exampleRemovableState with registry := ["alpha"] }
      (by decide) (by decide)).2.2 hok rfl

theorem ensureUserStage_fst_g (cfg : Databases) (g h2 : Nat → Nat)
    (database : String) (st : State) :
    (ensureUserStage cfg g database st).fst = (ensureUserStage cfg h2 database st).fst := by
  unfold ensureUserStage
  dsimp only
  split <;> rfl

theorem ensureUserStage_absent (cfg : Databases) (g : Nat → Nat) (database : String)
    (st : State) (h : lookupRole st.server database = none) :
    ensureUserStage cfg g database st =
      ({ server := st.server.addRole (newManagedRole database none),
         registry := st.registry,
         trace := st.trace ++ [⟨cfg.default_dbname, .queryUserPermissions database⟩,
           ⟨cfg.default_dbname, .exec (createUserStmt database)⟩] },
       some (sampleAlphanumeric g)) := by
  unfold ensureUserStage
  dsimp only
  simp only [addStmt_server]
  rw [h]
  simp [State.addStmt]

theorem ensureDbStage_roles (cfg : Databases) (database : String) (st : State) :
    (ensureDbStage cfg database st).server.roles = st.server.roles := by
  unfold ensureDbStage
  dsimp only
  split <;> rfl

theorem ensure_exists_fst_g (cfg : Databases) (g h2 : Nat → Nat) (database : String)
    (st : State) :
    (cfg.ensure_exists g database st).fst = (cfg.ensure_exists h2 database st).fst := by
  by_cases hd : database = cfg.default_dbname
  · rw [ensure_exists_default_eq cfg g database st hd,
      ensure_exists_default_eq cfg h2 database st hd]
  · rw [ensure_exists_eq cfg g database st hd, ensure_exists_eq cfg h2 database st hd]
    dsimp only
    rw [ensureUserStage_fst_g cfg g h2 database]

theorem getD_alnum (l : List Char) (hl : ∀ c ∈ l, isAlphanumeric c = true)
    (d : Char) (hd : isAlphanumeric d = true) (n : Nat) :
    isAlphanumeric (l.getD n d) = true := by
  rw [List.getD_eq_getElem?_getD]
  rcases lt_or_ge n l.length with h | h
  · rw [List.getElem?_eq_getElem h]
    exact hl _ (List.getElem_mem h)
  · rw [List.getElem?_eq_none h]
    exact hd

theorem sampleAlphanumeric_length (g : Nat → Nat) :
    (sampleAlphanumeric g).length = 32 := by
  simp [sampleAlphanumeric, String.length_mk]

theorem sampleAlphanumeric_alnum (g : Nat → Nat) :
    ∀ c ∈ (sampleAlphanumeric g).toList, isAlphanumeric c = true := by
  intro c hc
  simp only [sampleAlphanumeric, String.toList, List.mem_map] at hc
  obtain ⟨i, -, rfl⟩ := hc
  exact getD_alnum alphanumericChars (by decide) _ (by decide) _

/-- C9: when `ensure_exists` creates a previously absent user, the password it
returns is the freshly sampled 32-character alphanumeric string, the SQL it
sends is completely independent of that sample (the CREATE USER statement
carries no PASSWORD clause), and the server-side credential of the new role is
empty — so the returned password is not the credential the server stores. -/
theorem c9_fresh_password_not_sent (cfg : Databases) (g h2 : Nat → Nat)
    (database : String) (st : State) (hname : database ≠ cfg.default_dbname)
    (habsent : lookupRole st.server database = none) :
    (cfg.ensure_exists g database st).snd = .ok (database, some (sampleAlphanumeric g)) ∧
    (sampleAlphanumeric g).length = 32 ∧
    (∀ c ∈ (sampleAlphanumeric g).toList, isAlphanumeric c = true) ∧
    (cfg.ensure_exists g database st).fst.trace =
      (cfg.ensure_exists h2 database st).fst.trace ∧
    lookupRole (cfg.ensure_exists g database st).fst.server database =
      some (newManagedRole database none) ∧
    (newManagedRole database none).rolpassword = none := by
  have habsent' : lookupRole (st.getPool cfg.default_dbname).server database = none :=
    habsent
  refine ⟨?_, sampleAlphanumeric_length g, sampleAlphanumeric_alnum g, ?_, ?_, rfl⟩
  · rw [ensure_exists_eq cfg g database st hname]
    dsimp only
    rw [ensureUserStage_absent cfg g database _ habsent']
  · rw [ensure_exists_fst_g cfg g h2 database st]
  · rw [ensure_exists_eq cfg g database st hname]
    dsimp only
    rw [getPool_server]
    unfold lookupRole
    rw [ensureDbStage_roles, ensureUserStage_absent cfg g database _ habsent']
    dsimp only [addRole_roles]
    rw [List.find?_append]
    simp only [getPool_server]
    unfold lookupRole at habsent
    rw [habsent]
    simp [newManagedRole]

/-- C9 witness: creating the database alpha on the bootstrapped state. -/
theorem c9_fresh_password_not_sent_witness :
    (demoCfg.ensure_exists (fun _ => 0) ("alpha") demoBootState).snd =
      .ok ("alpha", some (sampleAlphanumeric (fun _ => 0))) ∧
    (sampleAlphanumeric (fun _ => 0)).length = 32 ∧
    lookupRole (demoCfg.ensure_exists (fun _ => 0) ("alpha") demoBootState).fst.server
      ("alpha") = some (newManagedRole ("alpha") none) := by
  have h := c9_fresh_password_not_sent demoCfg (fun _ => 0) (fun _ => 1) ("alpha")
    demoBootState (by decide) (by rfl)
  exact ⟨h.1, h.2.1, h.2.2.2.2.1⟩

theorem filter_setRolePassword (roles : List Role) (name pw : String) :
    ((roles.map (fun r =>
        if r.username == name then { r with rolpassword := some pw } else r)).filter
      (fun x => x.username == name)) =
      ((roles.filter (fun x => x.username == name)).map
        (fun r => { r with rolpassword := some pw })) := by
  induction roles with
  | nil => rfl
  | cons a t ih =>
    by_cases h : a.username = name <;>
      (simp [List.filter_cons, h]
       simpa using ih)

theorem map_username_setRolePassword (roles : List Role) (name pw : String) :
    ((roles.map (fun r =>
        if r.username == name then { r with rolpassword := some pw } else r)).map
      Role.username) = roles.map Role.username := by
  rw [List.map_map]
  apply List.map_congr_left
  intro a _
  by_cases h : (a.username == name) = true <;> simp [Function.comp, h]

theorem filter_setDbOwner (dbs : List Db) (name owner : String) :
    ((dbs.map (fun d =>
        if d.datname == name then { d with owner := owner } else d)).filter
      (fun x => x.datname == name)) =
      ((dbs.filter (fun x => x.datname == name)).map
        (fun d => { d with owner := owner })) := by
  induction dbs with
  | nil => rfl
  | cons a t ih =>
    by_cases h : a.datname = name <;>
      (simp [List.filter_cons, h]
       simpa using ih)

theorem map_datname_setDbOwner (dbs : List Db) (name owner : String) :
    ((dbs.map (fun d =>
        if d.datname == name then { d with owner := owner } else d)).map
      Db.datname) = dbs.map Db.datname := by
  rw [List.map_map]
  apply List.map_congr_left
  intro a _
  by_cases h : (a.datname == name) = true <;> simp [Function.comp, h]

theorem upsertUserStage_post (cfg : Databases) (name password : String) (st : State)
    (hnd : (st.server.roles.map Role.username).Nodup) :
    ((upsertUserStage cfg name password st).server.roles.map Role.username).Nodup ∧
    (∃ r, ((upsertUserStage cfg name password st).server.roles.filter
        (fun x => x.username == name)) = [r] ∧
      r.username = name ∧ r.rolpassword = some password) ∧
    (upsertUserStage cfg name password st).server.dbs = st.server.dbs ∧
    ((lookupRole st.server name).isSome = true →
      (upsertUserStage cfg name password st).trace =
        st.trace ++ [⟨cfg.default_dbname, .queryUserPermissions name⟩,
          ⟨cfg.default_dbname, .exec (alterUserPasswordStmt name password)⟩]) ∧
    (∃ t, (upsertUserStage cfg name password st).trace = st.trace ++ t) := by
  unfold upsertUserStage
  dsimp only
  simp only [addStmt_server]
  cases hl : lookupRole st.server name with
  | none =>
    have hl2 : ∀ x ∈ st.server.roles, ¬((x.username == name) = true) :=
      List.find?_eq_none.mp hl
    refine ⟨?_, ?_, rfl, ?_, ?_⟩
    · dsimp only [addRole_roles]
      rw [List.map_append, List.nodup_append]
      refine ⟨hnd, by simp, ?_⟩
      intro a ha hb
      simp only [List.map_cons, List.map_nil, List.mem_singleton, newManagedRole] at hb
      rw [List.mem_map] at ha
      obtain ⟨x, hx, hxa⟩ := ha
      exact hl2 x hx (by simp [hxa, hb])
    · refine ⟨newManagedRole name (some password), ?_, rfl, rfl⟩
      dsimp only [addRole_roles]
      rw [List.filter_append, List.filter_eq_nil_iff.mpr hl2]
      simp [newManagedRole]
    · intro hs
      simp at hs
    · exact ⟨[⟨cfg.default_dbname, .queryUserPermissions name⟩,
        ⟨cfg.default_dbname, .exec (createUserWithPasswordStmt name password)⟩],
        by simp [State.addStmt]⟩
  | some r0 =>
    have hfil : st.server.roles.filter (fun x => x.username == name) = [r0] :=
      filter_eq_single_of_find? Role.username st.server.roles name hnd r0 hl
    have hr0 : (r0.username == name) = true :=
      @List.find?_some Role (fun x => x.username == name) r0 st.server.roles hl
    refine ⟨?_, ?_, rfl, ?_, ?_⟩
    · dsimp only [ServerState.setRolePassword]
      rw [map_username_setRolePassword]
      exact hnd
    · refine ⟨{ r0 with rolpassword := some password }, ?_, ?_, rfl⟩
      · dsimp only [ServerState.setRolePassword]
        rw [filter_setRolePassword, hfil]
        rfl
      · exact eq_of_beq hr0
    · intro _
      simp [State.addStmt]
    · exact ⟨[⟨cfg.default_dbname, .queryUserPermissions name⟩,
        ⟨cfg.default_dbname, .exec (alterUserPasswordStmt name password)⟩],
        by simp [State.addStmt]⟩

theorem upsertDatabaseStage_post (cfg : Databases) (name : String) (st : State)
    (hnd : (st.server.dbs.map Db.datname).Nodup) :
    ((upsertDatabaseStage cfg name st).server.dbs.map Db.datname).Nodup ∧
    ((upsertDatabaseStage cfg name st).server.dbs.filter
      (fun d => d.datname == name)) = [⟨name, name⟩] ∧
    (upsertDatabaseStage cfg name st).server.roles = st.server.roles ∧
    (∃ t, (upsertDatabaseStage cfg name st).trace = st.trace ++ t) := by
  unfold upsertDatabaseStage
  dsimp only
  simp only [addStmt_server]
  cases hl : lookupDb st.server name with
  | none =>
    have hl2 : ∀ x ∈ st.server.dbs, ¬((x.datname == name) = true) :=
      List.find?_eq_none.mp hl
    refine ⟨?_, ?_, rfl, ?_⟩
    · dsimp only [addDb_dbs]
      rw [List.map_append, List.nodup_append]
      refine ⟨hnd, by simp, ?_⟩
      intro a ha hb
      simp only [List.map_cons, List.map_nil, List.mem_singleton] at hb
      rw [List.mem_map] at ha
      obtain ⟨x, hx, hxa⟩ := ha
      exact hl2 x hx (by simp [hxa, hb])
    · dsimp only [addDb_dbs]
      rw [List.filter_append, List.filter_eq_nil_iff.mpr hl2]
      simp
    · exact ⟨[⟨cfg.default_dbname, .queryDatabaseOid name⟩,
        ⟨cfg.default_dbname, .exec (createDatabaseStmt name)⟩],
        by simp [State.addStmt]⟩
  | some d0 =>
    have hfil : st.server.dbs.filter (fun x => x.datname == name) = [d0] :=
      filter_eq_single_of_find? Db.datname st.server.dbs name hnd d0 hl
    have hd0 : (d0.datname == name) = true :=
      @List.find?_some Db (fun x => x.datname == name) d0 st.server.dbs hl
    refine ⟨?_, ?_, rfl, ?_⟩
    · dsimp only [ServerState.setDbOwner]
      rw [map_datname_setDbOwner]
      exact hnd
    · dsimp only [ServerState.setDbOwner]
      rw [filter_setDbOwner, hfil]
      have : d0.datname = name := eq_of_beq hd0
      simp [this]
    · exact ⟨[⟨cfg.default_dbname, .queryDatabaseOid name⟩,
        ⟨cfg.default_dbname, .exec (alterDatabaseOwnerStmt name name)⟩],
        by simp [State.addStmt]⟩

theorem ensure_eq_of_ne (cfg : Databases) (name password : String) (st : State)
    (h : name ≠ cfg.default_dbname) :
    cfg.ensure name password st =
      ((Database.ensure_authentication_query name
          (Database.ensure_schema name
            ((upsertDatabaseStage cfg name
              (upsertUserStage cfg name password
                (st.getPool cfg.default_dbname))).getPool name)).fst).fst,
        .ok ()) := by
  have hmem : name ∈ (Database.ensure_schema name
      ((upsertDatabaseStage cfg name (upsertUserStage cfg name password
        (st.getPool cfg.default_dbname))).getPool name)).fst.server.schemas := by
    rw [ensure_schema_eq]
    exact mem_registryInsert_self _ _
  have hok := (ensure_authentication_query_spec name _).2.2.2.2 hmem
  unfold Databases.ensure
  rw [if_neg h]
  dsimp only
  rw [ensure_schema_eq] at hok ⊢
  dsimp only
  dsimp only at hok
  rw [hok]

theorem ensure_post (cfg : Databases) (name password : String) (st : State)
    (hname : name ≠ cfg.default_dbname) (hwf : wellFormed st.server) :
    (cfg.ensure name password st).snd = .ok () ∧
    wellFormed (cfg.ensure name password st).fst.server ∧
    (∃ r, ((cfg.ensure name password st).fst.server.roles.filter
        (fun x => x.username == name)) = [r] ∧ r.username = name ∧
        r.rolpassword = some password) ∧
    ((cfg.ensure name password st).fst.server.dbs.filter
      (fun d => d.datname == name)) = [⟨name, name⟩] ∧
    ((lookupRole st.server name).isSome = true →
      ∃ t, (cfg.ensure name password st).fst.trace =
        st.trace ++ [⟨cfg.default_dbname, .queryUserPermissions name⟩,
          ⟨cfg.default_dbname, .exec (alterUserPasswordStmt name password)⟩] ++ t) := by
  obtain ⟨upost1, ⟨r1, hr1, hr1u, hr1p⟩, upost3, upost4, ⟨tu, hut⟩⟩ :=
    upsertUserStage_post cfg name password (st.getPool cfg.default_dbname) hwf.1
  have hdnd : ((upsertUserStage cfg name password
      (st.getPool cfg.default_dbname)).server.dbs.map Db.datname).Nodup := by
    rw [upost3]
    exact hwf.2
  obtain ⟨dpost1, dpost2, dpost3, ⟨td, hdt⟩⟩ :=
    upsertDatabaseStage_post cfg name
      (upsertUserStage cfg name password (st.getPool cfg.default_dbname)) hdnd
  obtain ⟨areg, aroles, adbs, ⟨ta, hat⟩, aok⟩ :=
    ensure_authentication_query_spec name
      (Database.ensure_schema name
        ((upsertDatabaseStage cfg name
          (upsertUserStage cfg name password
            (st.getPool cfg.default_dbname))).getPool name)).fst
  rw [ensure_eq_of_ne cfg name password st hname]
  dsimp only
  rw [ensure_schema_eq]
  dsimp only
  rw [ensure_schema_eq] at aroles adbs hat
  dsimp only at aroles adbs hat
  refine ⟨rfl, ⟨?_, ?_⟩, ⟨r1, ?_, hr1u, hr1p⟩, ?_, ?_⟩
  · rw [aroles, getPool_server, dpost3]
    exact upost1
  · rw [adbs, getPool_server]
    exact dpost1
  · rw [aroles, getPool_server, dpost3]
    exact hr1
  · rw [adbs, getPool_server]
    exact dpost2
  · intro hsome
    have hut2 := upost4 hsome
    refine ⟨td ++ ([⟨name, .exec ("CREATE SCHEMA IF NOT EXISTS pgbouncer")⟩,
      ⟨name, .exec ("GRANT USAGE ON SCHEMA pgbouncer TO pgbouncer")⟩] ++ ta), ?_⟩
    rw [hat]
    dsimp only [getPool_trace]
    rw [hdt, hut2]
    simp [State.getPool]

/-- C1: for a non-default name over well-formed catalogs, `ensure(name, p)`
followed by `ensure(name, p2)` succeeds and leaves exactly one role and one
database named `name`, the database owned by role `name`, with the role's
stored password equal to the most recently supplied `p2`; the second run takes
the ALTER USER ... WITH PASSWORD path (its trace extends the first run's trace
with the role lookup followed immediately by that ALTER USER statement). -/
theorem c1_ensure_rotates_password (cfg : Databases) (name p p2 : String)
    (st : State) (hname : name ≠ cfg.default_dbname) (hwf : wellFormed st.server) :
    (cfg.ensure name p st).snd = .ok () ∧
    (cfg.ensure name p2 (cfg.ensure name p st).fst).snd = .ok () ∧
    (∃ r, ((cfg.ensure name p2 (cfg.ensure name p st).fst).fst.server.roles.filter
        (fun x => x.username == name)) = [r] ∧ r.username = name ∧
        r.rolpassword = some p2) ∧
    ((cfg.ensure name p2 (cfg.ensure name p st).fst).fst.server.dbs.filter
      (fun d => d.datname == name)) = [⟨name, name⟩] ∧
    (∃ t, (cfg.ensure name p2 (cfg.ensure name p st).fst).fst.trace =
      (cfg.ensure name p st).fst.trace ++
        [⟨cfg.default_dbname, .queryUserPermissions name⟩,
         ⟨cfg.default_dbname, .exec (alterUserPasswordStmt name p2)⟩] ++ t) := by
  obtain ⟨p1ok, p1wf, ⟨r1, hr1, hr1u, hr1p⟩, p1db, p1tr⟩ :=
    ensure_post cfg name p st hname hwf
  have hsome : (lookupRole (cfg.ensure name p st).fst.server name).isSome = true := by
    unfold lookupRole
    rw [find?_of_filter_single _ _ r1 hr1]
    rfl
  obtain ⟨p2ok, p2wf, p2role, p2db, p2tr⟩ :=
    ensure_post cfg name p2 (cfg.ensure name p st).fst hname p1wf
  exact ⟨p1ok, p2ok, p2role, p2db, p2tr hsome⟩

/-- C1 witness: ensuring alpha twice with rotated passwords over the
bootstrapped state. -/
theorem c1_ensure_rotates_password_witness :
    (demoCfg.ensure ("alpha") ("s3cret") demoBootState).snd = .ok () ∧
    (demoCfg.ensure ("alpha") ("rot8ed")
      (demoCfg.ensure ("alpha") ("s3cret") demoBootState).fst).snd = .ok () ∧
    (∃ r, ((demoCfg.ensure ("alpha") ("rot8ed")
        (demoCfg.ensure ("alpha") ("s3cret") demoBootState).fst).fst.server.roles.filter
          (fun x => x.username == "alpha")) = [r] ∧ r.username = "alpha" ∧
        r.rolpassword = some ("rot8ed")) := by
  have h := c1_ensure_rotates_password demoCfg ("alpha") ("s3cret") ("rot8ed")
      demoBootState (by decide) (by constructor <;> decide)
  exact ⟨h.1, h.2.1, h.2.2.1⟩

/-- C3 (amended): `ensure_configuration` obtains the default pool, verifies
the connecting role has CREATE ROLE and CREATE DB (failing with
InvalidPermissions otherwise), and creates the pgbouncer role only when
absent — and that is all: its statement trace ends there, with no
authentication-schema or user_lookup installation on the default database
(those run per-database from the controller's Create and Check commands). -/
theorem c3_ensure_configuration_behavior (cfg : Databases) (user : String)
    (st : State) (u : Role) (hu : lookupRole st.server user = some u) :
    (cfg.ensure_configuration user st).fst.registry =
      registryInsert st.registry cfg.default_dbname ∧
    (u.create_role = true ∧ u.create_db = true →
      (cfg.ensure_configuration user st).snd = .ok () ∧
      (cfg.ensure_configuration user st).fst.trace =
        st.trace ++ [⟨cfg.default_dbname, .queryUserPermissions user⟩,
          ⟨cfg.default_dbname, .queryUserPermissions ("pgbouncer")⟩] ++
        (match lookupRole st.server ("pgbouncer") with
          | some _ => []
          | none => [⟨cfg.default_dbname, .exec (createUserStmt ("pgbouncer"))⟩])) ∧
    (¬(u.create_role = true ∧ u.create_db = true) →
      (cfg.ensure_configuration user st).snd = .error .InvalidPermissions ∧
      (cfg.ensure_configuration user st).fst.trace =
        st.trace ++ [⟨cfg.default_dbname, .queryUserPermissions user⟩]) := by
  unfold Databases.ensure_configuration
  dsimp only
  simp only [addStmt_server, getPool_server]
  rw [hu]
  dsimp only
  by_cases hperm : u.create_role = true ∧ u.create_db = true
  · have hb : (!(u.create_role && u.create_db)) = false := by
      simp [hperm.1, hperm.2]
    rw [hb]
    simp only [Bool.false_eq_true, if_false]
    cases hpg : lookupRole st.server ("pgbouncer") with
    | some v =>
      refine ⟨rfl, fun _ => ⟨rfl, ?_⟩, fun hn => absurd hperm hn⟩
      simp [State.addStmt, State.getPool]
    | none =>
      refine ⟨rfl, fun _ => ⟨rfl, ?_⟩, fun hn => absurd hperm hn⟩
      simp [State.addStmt, State.getPool]
  · have hb : (!(u.create_role && u.create_db)) = true := by
      cases hcr : u.create_role <;> cases hcd : u.create_db <;> simp_all
    rw [hb, if_pos rfl]
    refine ⟨rfl, fun hp => absurd hp hperm, fun _ => ⟨rfl, ?_⟩⟩
    simp [State.addStmt, State.getPool]

/-- C3 witness: the bootstrap over the demo server, where the admin role has
both permissions and pgbouncer is absent. -/
theorem c3_ensure_configuration_behavior_witness :
    (demoCfg.ensure_configuration ("admin") ⟨demoServer, [], []⟩).snd = .ok () ∧
    (demoCfg.ensure_configuration ("admin") ⟨demoServer, [], []⟩).fst.registry =
      registryInsert [] ("postgres") := by
  have h := c3_ensure_configuration_behavior demoCfg ("admin") ⟨demoServer, [], []⟩
      ⟨"admin", true, true, true, false, false, none⟩ (by rfl)
  exact ⟨(h.2.1 (by decide)).1, h.1⟩

/-- C10: for a managed name, the DELETE and PUT handlers reply 204 with an
empty body immediately, having only appended the Remove or Check command to
the controller queue — the database state is untouched at response time — and
the controller's later processing of those commands never halts the loop nor
produces any response, whether or not the SQL work fails. -/
theorem c10_enqueue_then_204 (cfg : Databases) (g : Nat → Nat) (name : String)
    (retain : Option Bool) (cs : ControllerState)
    (hm : Databases.is_managed cs.db name = true) :
    database_delete name retain cs =
      (⟨204, ""⟩, ⟨cs.db, cs.queue ++ [.Remove name (retain.getD false)]⟩) ∧
    database_check name cs = (⟨204, ""⟩, ⟨cs.db, cs.queue ++ [.Check name]⟩) ∧
    (handle_command cfg g cs.db (.Remove name (retain.getD false))).snd.fst = false ∧
    (handle_command cfg g cs.db (.Check name)).snd.fst = false := by
  refine ⟨?_, ?_, ?_, ?_⟩
  · simp [database_delete, hm]
  · simp [database_check, hm]
  · unfold handle_command
    dsimp only
    split <;> rfl
  · unfold handle_command
    dsimp only
    split <;> first | rfl | (split <;> rfl)

/-- C10 witness: deleting the registered default-bootstrap state's database
alpha once it is managed. -/
theorem c10_enqueue_then_204_witness :
    database_delete ("alpha") (some true) ⟨⟨demoServer, ["alpha"], []⟩, []⟩ =
      (⟨204, ""⟩, ⟨⟨demoServer, ["alpha"], []⟩, [.Remove ("alpha") true]⟩) ∧
    (handle_command demoCfg (fun _ => 0) ⟨demoServer, ["alpha"], []⟩
      (.Remove ("alpha") true)).snd.fst = false := by
  have h := c10_enqueue_then_204 demoCfg (fun _ => 0) ("alpha") (some true)
      ⟨⟨demoServer, ["alpha"], []⟩, []⟩ (by decide)
  exact ⟨h.1, h.2.2.1⟩

/-- C5 (amended): the POST /databases deserializer keeps only the name field
(a password field in the body is ignored), and the handler's reply mirrors the
Create command's oneshot result as a 200 OK JSON `CreateResponse` — never a
204 with empty body. -/
theorem c5_create_response (cfg : Databases) (g : Nat → Nat) (req : CreateRequest)
    (cs : ControllerState) (fields : List (String × String)) (n : String)
    (hn : fields.lookup ("name") = some n) :
    parseCreateRequest fields = some ⟨n⟩ ∧
    (database_create cfg g req cs).fst =
      ((handle_command cfg g cs.db (.Create req.name)).snd.snd).map
        (fun pw => ⟨200, serializeCreateResponse pw⟩) := by
  constructor
  · unfold parseCreateRequest
    rw [hn]
  · unfold database_create
    dsimp only
    cases hs : (handle_command cfg g cs.db (.Create req.name)).snd.snd <;> simp

/-- C5 witness: the amended behavior at the concrete alpha request. -/
theorem c5_create_response_witness :
    parseCreateRequest [(("name"), ("alpha")), (("password"), ("s3cret"))] =
      some ⟨"alpha"⟩ ∧
    (database_create demoCfg (fun _ => 0) ⟨"alpha"⟩ demoController).fst =
      ((handle_command demoCfg (fun _ => 0) demoController.db
          (.Create ("alpha"))).snd.snd).map
        (fun pw => ⟨200, serializeCreateResponse pw⟩) :=
  c5_create_response demoCfg (fun _ => 0) ⟨"alpha"⟩ demoController
    [(("name"), ("alpha")), (("password"), ("s3cret"))] ("alpha") (by rfl)

theorem deleteSecrets_subset (c : Cluster) (n : String) (nss : List String) :
    (deleteSecrets c n nss).fst ⊆ c := by
  induction nss generalizing c with
  | nil => simp [deleteSecrets]
  | cons ns rest ih =>
    unfold deleteSecrets
    cases hd : secretDelete c ns n with
    | error e => simp
    | ok c2 =>
      dsimp only
      have h1 : c2 ⊆ c := by
        unfold secretDelete at hd
        split at hd
        · injection hd with hd
          rw [← hd]
          exact List.Sublist.subset (List.filter_sublist _)
        · exact absurd hd (by simp)
      exact (ih c2).trans h1

theorem deleteSecrets_ok (c : Cluster) (n : String) (nss : List String)
    (hnd : nss.Nodup) (hall : ∀ ns ∈ nss, (ns, n) ∈ c.map Prod.fst) :
    (deleteSecrets c n nss).snd = .ok () ∧
    ∀ ns ∈ nss, (ns, n) ∉ (deleteSecrets c n nss).fst.map Prod.fst := by
  induction nss generalizing c with
  | nil => simp [deleteSecrets]
  | cons ns rest ih =>
    rw [List.nodup_cons] at hnd
    have hmem : (ns, n) ∈ c.map Prod.fst := hall ns (by simp)
    unfold deleteSecrets
    unfold secretDelete
    rw [if_pos hmem]
    dsimp only
    have hall2 : ∀ x ∈ rest, (x, n) ∈
        (c.filter (fun e => !(e.fst == (ns, n)))).map Prod.fst := by
      intro x hx
      have hx2 := hall x (by simp [hx])
      rw [List.mem_map] at hx2 ⊢
      obtain ⟨e, he, hfst⟩ := hx2
      refine ⟨e, ?_, hfst⟩
      rw [List.mem_filter]
      refine ⟨he, ?_⟩
      have : e.fst ≠ (ns, n) := by
        rw [hfst]
        intro hcon
        exact hnd.1 (by injection hcon with h1 h2; exact h1 ▸ hx)
      simp [this]
    obtain ⟨hok, hgone⟩ := ih _ hnd.2 hall2
    refine ⟨hok, ?_⟩
    intro x hx
    rcases List.mem_cons.mp hx with rfl | hx2
    · intro hcon
      have hsub := deleteSecrets_subset
        (c.filter (fun e => !(e.fst == (x, n)))) n rest
      rw [List.mem_map] at hcon
      obtain ⟨e, he, hfst⟩ := hcon
      have he2 := hsub he
      rw [List.mem_filter] at he2
      have : (e.fst == (x, n)) = true := by simp [hfst]
      simp [this] at he2
    · exact hgone x hx2

theorem deleteSecrets_error_of_missing (c : Cluster) (n : String)
    (nss : List String) (h : ∃ ns ∈ nss, (ns, n) ∉ c.map Prod.fst) :
    (deleteSecrets c n nss).snd = .error (.Api 404) := by
  induction nss generalizing c with
  | nil => simp at h
  | cons ns rest ih =>
    unfold deleteSecrets
    by_cases hm : (ns, n) ∈ c.map Prod.fst
    · unfold secretDelete
      rw [if_pos hm]
      dsimp only
      apply ih
      obtain ⟨w, hw, hwm⟩ := h
      rcases List.mem_cons.mp hw with rfl | hw2
      · exact absurd hm hwm
      · refine ⟨w, hw2, ?_⟩
        intro hcon
        apply hwm
        rw [List.mem_map] at hcon ⊢
        obtain ⟨e, he, hfst⟩ := hcon
        rw [List.mem_filter] at he
        exact ⟨e, he.1, hfst⟩
    · unfold secretDelete
      rw [if_neg hm]

/-- C8 (amended): after `remove` succeeds the cleanup branch deletes the
replicated Secret by name in every namespace of `spec.secret.namespaces`,
propagating any deletion error: when every secret is present the branch
removes them all and returns await-change, but an already absent secret makes
the cleanup reconcile fail with the Kubernetes 404 (deletion is not
best-effort). -/
theorem c8_cleanup_deletes_or_fails (cfg : Databases) (cr : DatabaseCR)
    (st : State) (cluster : Cluster) (name : String)
    (hname : cr.metadata_name = some name)
    (hremove : (cfg.remove name cr.spec.retain_on_delete st).snd = .ok ()) :
    ((cr.spec.secret.namespaces.Nodup ∧
        ∀ ns ∈ cr.spec.secret.namespaces,
          (ns, secret_name_for_database cr name) ∈ cluster.map Prod.fst) →
      (cleanup cfg cr st cluster).snd = .ok .awaitChange ∧
      ∀ ns ∈ cr.spec.secret.namespaces,
        (ns, secret_name_for_database cr name) ∉
          (cleanup cfg cr st cluster).fst.snd.map Prod.fst) ∧
    ((∃ ns ∈ cr.spec.secret.namespaces,
        (ns, secret_name_for_database cr name) ∉ cluster.map Prod.fst) →
      (cleanup cfg cr st cluster).snd = .error (.Kubernetes (.Api 404))) := by
  unfold cleanup name_for_database
  rw [hname]
  dsimp only
  rw [hremove]
  dsimp only
  constructor
  · rintro ⟨hnd, hall⟩
    obtain ⟨hok, hgone⟩ :=
      deleteSecrets_ok cluster (secret_name_for_database cr name)
        cr.spec.secret.namespaces hnd hall
    rw [hok]
    exact ⟨rfl, hgone⟩
  · intro hmissing
    rw [deleteSecrets_error_of_missing cluster _ _ hmissing]

/-- C8 witness: the amended success half at a cluster holding the secret. -/
theorem c8_cleanup_deletes_or_fails_witness :
    (cleanup demoCfg exampleCR exampleRemovableState
        [((("team-a"), ("database-alpha-secret")), [])]).snd = .ok .awaitChange := by
  have h := c8_cleanup_deletes_or_fails demoCfg exampleCR exampleRemovableState
      [((("team-a"), ("database-alpha-secret")), [])] ("alpha") (by rfl) (by rfl)
  exact (h.1 (by decide)).1

/-- C4 (amended): at every reachable state the pool registry does contain an
entry for the administrative default database name (the bootstrap opens the
default pool, registering it, and no operation ever evicts it), so the default
name always appears in the managed names returned by GET /databases. -/
theorem c4_default_always_managed (cfg : Databases) (st : State)
    (h : Reachable cfg st) :
    cfg.default_dbname ∈ st.registry ∧
    cfg.default_dbname ∈ Databases.managed_databases st := by
  have hmem : cfg.default_dbname ∈ st.registry := by
    induction h with
    | boot sv st0 hnew => exact new_ok_default_mem cfg sv st0 hnew
    | step st0 st1 hr hs ih =>
      cases hs with
      | ensure_exists g db => exact ensure_exists_default_mem cfg g db st0 ih
      | ensure n pw => exact ensure_default_mem cfg n pw st0 ih
      | remove db r => exact remove_default_mem cfg db r st0 ih
      | get db =>
          rw [getPool_registry]
          simp [ih]
      | ensure_schema pool =>
          rw [ensure_schema_eq]
          exact ih
      | ensure_authentication_query pool =>
          exact ensure_authentication_query_default_mem cfg pool st0 ih
      | command g c => exact handle_command_default_mem cfg g st0 c ih
  exact ⟨hmem, hmem⟩

/-- C4 witness: the theorem applied to the concrete bootstrapped state. -/
theorem c4_default_always_managed_witness :
    demoCfg.default_dbname ∈ demoBootState.registry ∧
    demoCfg.default_dbname ∈ Databases.managed_databases demoBootState :=
  c4_default_always_managed demoCfg demoBootState
    (.boot demoServer demoBootState (by rfl))

/-- C6: ensure and remove at the administrative default database name fail
with `DefaultDatabase` and produce no side effects at all: the returned state
is exactly the input state (same registry, same server catalogs, no SQL
executed), for `ensure_exists`, for the spec-modelled `ensure`, and for
`remove`. -/
theorem c6_default_database_no_side_effects (cfg : Databases) (g : Nat → Nat)
    (p : String) (r : Bool) (st : State) :
    cfg.ensure_exists g cfg.default_dbname st = (st, .error .DefaultDatabase) ∧
    cfg.ensure cfg.default_dbname p st = (st, .error .DefaultDatabase) ∧
    cfg.remove cfg.default_dbname r st = (st, .error .DefaultDatabase) := by
  refine ⟨?_, ?_, ?_⟩ <;>
    simp [Databases.ensure_exists, Databases.ensure, Databases.remove]

/-- C2: the code executes identifier-interpolating statements without any
validation.  The name `x; DROP DATABASE postgres` is outside the class
`[A-Za-z_][A-Za-z0-9_]*`, yet `ensure_exists` sends the CREATE USER statement
interpolating it verbatim, and `remove` likewise sends DROP DATABASE text
interpolating an invalid name. -/
theorem c2_injection_not_rejected :
    isValidName ("x; DROP DATABASE postgres") = false ∧
    ((demoCfg.ensure_exists (fun _ => 0) ("x; DROP DATABASE postgres")
        ⟨demoServer, [], []⟩).fst.trace.contains
      ⟨"postgres", .exec (createUserStmt ("x; DROP DATABASE postgres"))⟩) = true ∧
    ((demoCfg.remove ("x; DROP DATABASE postgres") false
        ⟨demoServer, [], []⟩).fst.trace.contains
      ⟨"postgres", .exec (dropDatabaseStmt ("x; DROP DATABASE postgres"))⟩) = true := by
  refine ⟨by decide, by decide, by decide⟩

/-- C3: refutation of the final step.  On a concrete bootstrap (administrative
user with both permissions, no pgbouncer role) `ensure_configuration`
succeeds, and its complete statement trace is the two role lookups and the
pgbouncer CREATE USER: no authentication-schema or lookup-function
installation is performed on the default database. -/
theorem c3_counterexample :
    (demoCfg.ensure_configuration ("admin") ⟨demoServer, [], []⟩).snd = .ok () ∧
    demoBootState.trace =
      [⟨"postgres", .queryUserPermissions ("admin")⟩,
       ⟨"postgres", .queryUserPermissions ("pgbouncer")⟩,
       ⟨"postgres", .exec (createUserStmt ("pgbouncer"))⟩] ∧
    (demoBootState.trace.all (fun s =>
      !(s.op == .exec ("CREATE SCHEMA IF NOT EXISTS pgbouncer")) &&
      !(s.op == .exec ("GRANT USAGE ON SCHEMA pgbouncer TO pgbouncer")) &&
      !(s.op == .exec authenticationQueryFunctionSql))) = true := by
  refine ⟨by rfl, by decide, by decide⟩

/-- C4: refutation.  Immediately after a successful `Databases::new` the pool
registry already contains the administrative default database name (opening
the default pool registers it), so the default database appears in the list
returned by GET /databases at a reachable state. -/
theorem c4_counterexample :
    Databases.new ("postgres") ("admin") demoServer = .ok (demoCfg, demoBootState) ∧
    Reachable demoCfg demoBootState ∧
    demoCfg.default_dbname ∈ Databases.managed_databases demoBootState := by
  have h : Databases.new ("postgres") ("admin") demoServer = .ok (demoCfg, demoBootState) := by
    rfl
  exact ⟨h, .boot demoServer demoBootState h, by decide⟩

/-- C5: refutation.  The deserialized body keeps only the name (a password
field is ignored), and on success the handler responds 200 OK with the JSON
`CreateResponse` body carrying the generated password: neither status 204 nor
an empty body. -/
theorem c5_counterexample :
    parseCreateRequest [(("name"), ("alpha")), (("password"), ("s3cret"))] =
      some ⟨"alpha"⟩ ∧
    (database_create demoCfg (fun _ => 0) ⟨"alpha"⟩ demoController).fst =
      some ⟨200, serializeCreateResponse (some (sampleAlphanumeric (fun _ => 0)))⟩ ∧
    serializeCreateResponse (some (sampleAlphanumeric (fun _ => 0))) ≠ "" ∧
    (200 : Nat) ≠ 204 := by
  refine ⟨by decide, by decide, by decide, by decide⟩

/-- C8: refutation.  With the secret absent from the listed namespace, the
cleanup branch fails with the propagated Kubernetes 404 even though
`Databases::remove` itself succeeded: absence of the secret does make the
cleanup reconcile fail. -/
theorem c8_counterexample :
    (demoCfg.remove ("alpha") false exampleRemovableState).snd = .ok () ∧
    (cleanup demoCfg exampleCR exampleRemovableState []).snd =
      .error (.Kubernetes (.Api 404)) := by
  refine ⟨by rfl, by rfl⟩

end Theorems

end ExternalPostgres
